import Mathlib

/-!
Verification of the FuzzDriller endpoint-discovery tool (src/driller.py)
against its natural-language specification.

The Python program is shallowly embedded: Python strings become `String`
(manipulated through their `List Char` data), Python sets become `Finset`,
the mutable `FuzzDriller` object becomes an explicit `DrillerState` record,
one HTTP probe (`_fetch`) becomes a pure state-transition function taking the
probe outcome as an input, and the cooperative asyncio dispatch becomes a
fold over an arbitrary interleaving (permutation) of probe events, plus a
small-step transition system for the semaphore-bounded admission discipline.
Fallible library calls (`json.loads`, `int`) become `Option`-returning
functions, and the uncaught-exception control flow of the interactive menu
becomes `Except`.
-/

/- ===== Python string primitives used by driller.py ===== -/

/-- Python `s.lstrip('/')` on character lists: drop every leading `'/'`. -/
def lstripSlashL (l : List Char) : List Char := l.dropWhile (· = '/')

/-- Python `s.rstrip('/')` on character lists: drop every trailing `'/'`. -/
def rstripSlashL (l : List Char) : List Char := (l.reverse.dropWhile (· = '/')).reverse

/-- Python `s.rstrip('/')` on strings. -/
def rstripSlash (s : String) : String := ⟨rstripSlashL s.data⟩

/-- Python `s.lstrip('/')` on strings. -/
def lstripSlash (s : String) : String := ⟨lstripSlashL s.data⟩

/-- Python `s.strip('/')` on character lists: both ends. -/
def stripSlashBothL (l : List Char) : List Char := rstripSlashL (lstripSlashL l)

/-- Characters Python `str.strip()` removes (the ASCII whitespace class;
the full Unicode whitespace class is not needed by any claim). -/
def pySpace (c : Char) : Bool :=
  c = ' ' || c = '\t' || c = '\n' || c = '\r' || c = '\x0b' || c = '\x0c'

/-- Python `str.strip()` (no argument): whitespace removed from both ends. -/
def pyStrip (s : String) : String :=
  ⟨((s.data.dropWhile pySpace).reverse.dropWhile pySpace).reverse⟩

/-- Python `pat in s` (substring containment) on character lists. -/
def substrOf (pat s : List Char) : Bool := s.tails.any (pat.isPrefixOf ·)

/-- Python `pat in s` on strings. -/
def pyContains (s pat : String) : Bool := substrOf pat.data s.data

/-- Fuel-indexed helper for `removeOccs`; the fuel is the length of the
scanned list, which bounds the number of recursive calls. -/
def removeOccsAux (pat : List Char) : Nat → List Char → List Char
  | _, [] => []
  | 0, l => l
  | fuel + 1, c :: rest =>
    if !pat.isEmpty && pat.isPrefixOf (c :: rest) then
      removeOccsAux pat fuel (List.drop (pat.length - 1) rest)
    else
      c :: removeOccsAux pat fuel rest

/-- Python `s.replace(pat, '')`: remove every non-overlapping occurrence of
`pat`, scanning left to right.  For `pat = ''` Python returns `s` unchanged
(inserting the empty replacement between characters), which the guard
reproduces. -/
def removeOccs (pat s : List Char) : List Char := removeOccsAux pat s.length s

/-- Python `s.split(',')` on character lists: split at every comma, keeping
empty fields; splitting the empty string yields one empty field. -/
def splitCommaL : List Char → List (List Char)
  | [] => [[]]
  | c :: rest =>
    match splitCommaL rest with
    | [] => [[]]
    | g :: gs => if c = ',' then [] :: g :: gs else (c :: g) :: gs

/-- Python `s.split(',')` on strings. -/
def pySplitComma (s : String) : List String := (splitCommaL s.data).map String.mk

/-- Python `int(s)`: strip surrounding whitespace, accept an optional single
sign followed by a nonempty run of decimal digits; anything else raises
`ValueError`, modelled as `none`.  (Numeric-literal underscores, accepted by
CPython between digits, are not modelled; no claim evaluates them.) -/
def pyInt (s : String) : Option Int :=
  let t := (pyStrip s).data
  let signed : Int × List Char :=
    match t with
    | '+' :: ds => (1, ds)
    | '-' :: ds => (-1, ds)
    | ds => (1, ds)
  if signed.2 ≠ [] ∧ signed.2.all Char.isDigit then
    some (signed.1 * (signed.2.foldl (fun acc c => acc * 10 + (c.toNat - '0'.toNat)) 0 : Nat))
  else
    none

/-- Word characters of the Python regex class `\w` (Unicode mode, as used by
`re.sub(r'[^\w\-_]', '_', ...)`): ASCII alphanumerics, the underscore, and —
modelled here for code points up to U+00FF, the range exercised by the
claims — the Latin-1 letters and numeric characters of the Unicode table
(`ª ² ³ µ ¹ º ¼ ½ ¾` and `À..ÿ` except `×` and `÷`).  Code points above
U+00FF are treated as non-word; none appear in any claim input. -/
def pyWordChar (c : Char) : Bool :=
  c.isAlphanum || c = '_' ||
  [0xAA, 0xB2, 0xB3, 0xB5, 0xB9, 0xBA, 0xBC, 0xBD, 0xBE].contains c.val.toNat ||
  decide (0xC0 ≤ c.val.toNat ∧ c.val.toNat ≤ 0xFF ∧ c.val.toNat ≠ 0xD7 ∧ c.val.toNat ≠ 0xF7)

/-- One character of `re.sub(r'[^\w\-_]', '_', ...)`: characters outside
`\w ∪ {-, _}` become `'_'`; the pattern matches single characters, so the
substitution is a character map. -/
def sanitizeCharMap (c : Char) : Char :=
  if pyWordChar c || c = '-' || c = '_' then c else '_'

/- ===== Module-level configuration constants of driller.py ===== -/

/-- Constant `DEFAULT_WORDLIST` of driller.py. -/
def DEFAULT_WORDLIST : String := "Wordlist/pro_100.txt"

/-- Constant `DEFAULT_OUTPUT` of driller.py. -/
def DEFAULT_OUTPUT : String := "endpoints.txt"

/-- Constant `VALID_STATUS_CODES = list(range(200, 300)) + [401, 403]`. -/
def VALID_STATUS_CODES : List Nat := List.range' 200 100 ++ [401, 403]

/-- Constant `DEFAULT_METHODS = ['HEAD']`. -/
def DEFAULT_METHODS : List String := ["HEAD"]

/-- Constant `MAX_CONCURRENT_REQUESTS = 100`. -/
def MAX_CONCURRENT_REQUESTS : Nat := 100

/-- Constant `COMMON_PATHS` of driller.py. -/
def COMMON_PATHS : List String := ["/admin", "/login", "/dashboard", "/user", "/api"]

/- ===== FuzzDriller state and probing phase ===== -/

/-- The mutable attributes of a `FuzzDriller` instance. -/
structure DrillerState where
  base_url : String
  wordlist : String
  output_file : String
  headers : List (String × String)
  cookies : List (String × String)
  methods : List String
  valid_status_codes : List Nat
  found_endpoints : Finset String
  total_tasks : Nat
  completed_tasks : Nat
deriving DecidableEq

/-- `FuzzDriller.__init__`: stores the constructor arguments, stripping every
trailing `'/'` from `base_url` (`base_url.rstrip('/')`), and initialises
`found_endpoints = set()`, `total_tasks = 0`, `completed_tasks = 0`. -/
def FuzzDriller_init (base_url wordlist output_file : String)
    (headers cookies : List (String × String)) (methods : List String)
    (valid_status_codes : List Nat) : DrillerState :=
  { base_url := rstripSlash base_url
    wordlist := wordlist
    output_file := output_file
    headers := headers
    cookies := cookies
    methods := methods
    valid_status_codes := valid_status_codes
    found_endpoints := ∅
    total_tasks := 0
    completed_tasks := 0 }

/-- The URL built inside `_fetch`:
`f"{self.base_url}/{path.lstrip('/')}"` (note `self.base_url` was already
stripped of trailing slashes by `__init__`). -/
def fetchUrl (base path : String) : String := ⟨base.data ++ '/' :: lstripSlashL path.data⟩

/-- The request URL as a function of the raw constructor `base_url` and a
candidate path: composition of the `__init__` stripping and the `_fetch`
join. -/
def mkRequestUrl (base_url path : String) : String := fetchUrl (rstripSlash base_url) path

/-- Claim-variant of `mkRequestUrl`, following the specification text: strip
exactly ONE trailing slash from the target and exactly ONE leading slash from
the path, then join with a single slash.  Compared against `mkRequestUrl`. -/
def stripOneTrailingL (l : List Char) : List Char :=
  if l.getLast? = some '/' then l.dropLast else l

/-- One leading slash removed, for the claim-variant of the URL join. -/
def stripOneLeadingL : List Char → List Char
  | '/' :: t => t
  | l => l

/-- Claim-variant URL join (strip exactly one slash on each side). -/
def mkRequestUrlClaim (base_url path : String) : String :=
  ⟨stripOneTrailingL base_url.data ++ '/' :: stripOneLeadingL path.data⟩

/-- The result of one HTTP request: either a response with its status code,
or a raised transport exception (`except Exception` branch of `_fetch`). -/
inductive ProbeOutcome where
  | status (code : Nat)
  | failure (msg : String)
deriving DecidableEq

/-- One completed probe: the `(path, method)` candidate together with the
outcome the network delivered for it. -/
structure ProbeEvent where
  path : String
  method : String
  outcome : ProbeOutcome
deriving DecidableEq

/-- `FuzzDriller._fetch(path, method)` as a state transition, given the
outcome of the HTTP request.  On a response whose status is in
`valid_status_codes` the URL is added to `found_endpoints`; on any other
response or on an exception the set is unchanged; the `finally` block
increments `completed_tasks` in every case.  (The `method` field is passed to
the transport and does not influence the state transition.) -/
def fetchStep (st : DrillerState) (ev : ProbeEvent) : DrillerState :=
  let url := fetchUrl st.base_url ev.path
  match ev.outcome with
  | .status code =>
    let st1 :=
      if code ∈ st.valid_status_codes then
        { st with found_endpoints := insert url st.found_endpoints }
      else st
    { st1 with completed_tasks := st1.completed_tasks + 1 }
  | .failure _ => { st with completed_tasks := st.completed_tasks + 1 }

/-- The candidate `(path, method)` pairs generated by the nested loops of
`_process_paths`. -/
def candidates (paths methods : List String) : List (String × String) :=
  paths.flatMap (fun p => methods.map (fun m => (p, m)))

/-- The assignment `self.total_tasks = len(paths) * len(self.methods)` of
`_process_paths`. -/
def computeTotalTasks (paths methods : List String) : Nat :=
  paths.length * methods.length

/-- `FuzzDriller._process_paths(paths)`: set `total_tasks` before any probe
is dispatched, then run every probe to completion.  The scheduler is
cooperative and both shared mutations (`found_endpoints.add`,
`completed_tasks += 1`) are non-suspending, so a run is modelled as a fold of
`fetchStep` over the completed probe events in an arbitrary completion
order. -/
def process_paths (st : DrillerState) (paths : List String)
    (events : List ProbeEvent) : DrillerState :=
  events.foldl fetchStep { st with total_tasks := computeTotalTasks paths st.methods }

/-- `FuzzDriller._load_wordlist`: the stripped nonempty lines of the wordlist
file when it exists (`file_lines = none` models `os.path.exists` returning
false), followed by `COMMON_PATHS`, deduplicated (`list(set(paths))`; the
order of Python set iteration is unspecified, so the deduplicated list is
modelled by `List.dedup`, which is faithful for membership and length). -/
def load_wordlist (file_lines : Option (List String)) : List String :=
  let paths :=
    match file_lines with
    | some lines => (lines.map pyStrip).filter (fun l => l ≠ "")
    | none => []
  (paths ++ COMMON_PATHS).dedup

/-- Result of `FuzzDriller._save_results`: either the no-results warning with
no file written, or the report file overwritten with the given lines (one URL
per line, in the order produced by `sorted(self.found_endpoints)`). -/
inductive SaveOutcome where
  | warned
  | wrote (lines : List String)
deriving DecidableEq

/-- `FuzzDriller._save_results`: warn and write nothing when
`found_endpoints` is empty, otherwise write `sorted(self.found_endpoints)`
one URL per line (mode `'w'`: prior content is discarded). -/
def save_results (found_endpoints : Finset String) : SaveOutcome :=
  if found_endpoints = ∅ then .warned
  else .wrote (found_endpoints.sort (· ≤ ·))

/- ===== Content download phase ===== -/

/-- `_get_file_extension(content_type)`: substring tests, in source order. -/
def get_file_extension (content_type : String) : Option String :=
  if pyContains content_type "text/html" then some "html"
  else if pyContains content_type "application/javascript" then some "js"
  else if pyContains content_type "application/x-httpd-php" ||
          pyContains content_type "text/x-php" then some "php"
  else none

/-- Claim-variant of `_get_file_extension`, following the specification text
read as an exact mapping: only the four literal Content-Type values map to an
extension.  Compared against `get_file_extension`. -/
def get_file_extension_claim (content_type : String) : Option String :=
  if content_type = "text/html" then some "html"
  else if content_type = "application/javascript" then some "js"
  else if content_type = "application/x-httpd-php" ∨ content_type = "text/x-php" then some "php"
  else none

/-- `_sanitize_filename(url)`:
`re.sub(r'[^\w\-_]', '_', url.replace(self.base_url, '').strip('/'))` —
every occurrence of the (already slash-stripped) base URL is removed,
leading/trailing slashes are stripped, then each remaining character outside
the regex class is replaced by an underscore. -/
def sanitize_filename (base_url url : String) : String :=
  ⟨(stripSlashBothL (removeOccs base_url.data url.data)).map sanitizeCharMap⟩

/-- Characters of the class the claim describes: `[A-Za-z0-9_-]` only. -/
def asciiClassChar (c : Char) : Bool :=
  ('A' ≤ c && c ≤ 'Z') || ('a' ≤ c && c ≤ 'z') || ('0' ≤ c && c ≤ '9') || c = '_' || c = '-'

/-- Claim-variant of `_sanitize_filename`, following the specification text:
remove the base URL only as a leading prefix, do not strip slashes, and
replace every character outside `[A-Za-z0-9_-]` (in particular every
non-ASCII character) by an underscore.  Compared against
`sanitize_filename`. -/
def sanitize_filename_claim (base_url url : String) : String :=
  let body := if base_url.data.isPrefixOf url.data
              then url.data.drop base_url.data.length else url.data
  ⟨body.map (fun c => if asciiClassChar c then c else '_')⟩

/-- The response seen by `download_content`: status code, the
`Content-Type` header when present (`response.headers.get('Content-Type', '')`
supplies `''` when absent), and the body text. -/
structure DownloadResponse where
  status : Nat
  content_type : Option String
  body : String
deriving DecidableEq

/-- Result of `FuzzDriller.download_content(url)`: an artifact written under
`downloaded_pages/`, nothing (status rejected or unknown Content-Type — the
function silently returns), or a logged failure (the `except` branch). -/
inductive DownloadResult where
  | artifact (file_name ext body : String)
  | skipped
  | failed (msg : String)
deriving DecidableEq

/-- `FuzzDriller.download_content(url)` as a pure function of the response
(`resp = none` models a raised transport exception).  An artifact is produced
iff the status is in `valid_status_codes` and `_get_file_extension` maps the
Content-Type to an extension; its file name is the sanitized URL. -/
def download_content (st : DrillerState) (url : String)
    (resp : Option DownloadResponse) : DownloadResult :=
  match resp with
  | none => .failed "transport error"
  | some r =>
    if r.status ∈ st.valid_status_codes then
      match get_file_extension (r.content_type.getD "") with
      | some ext => .artifact (sanitize_filename st.base_url url) ext r.body
      | none => .skipped
    else .skipped

/-- The URLs for which `download_discovered_endpoints` dispatches a download
task: `[self.download_content(url) for url in self.found_endpoints]`.  Python
set iteration order is unspecified; the list is modelled sorted, which is
faithful for membership and length.  The method reads only the in-memory
set — it never reads the report file. -/
def download_tasks (st : DrillerState) : List String :=
  st.found_endpoints.sort (· ≤ ·)

/-- Menu option 4 of `interactive_menu`: construct a fresh `FuzzDriller` from
the current configuration and call `download_discovered_endpoints` on it; the
value is the list of URLs the fresh instance dispatches downloads for. -/
def menu_option4_tasks (base_url wordlist output_file : String)
    (headers cookies : List (String × String)) (methods : List String)
    (valid_status_codes : List Nat) : List String :=
  download_tasks
    (FuzzDriller_init base_url wordlist output_file headers cookies methods valid_status_codes)

/- ===== Interactive configuration (menu option 2) ===== -/

/-- The configuration variables of `interactive_menu`. -/
structure MenuConfig where
  base_url : Option String
  wordlist : String
  output_file : String
  headers : List (String × String)
  cookies : List (String × String)
  methods : List String
  valid_status_codes : List Int
deriving DecidableEq

/-- The initial configuration of `interactive_menu` (module defaults). -/
def defaultMenuConfig : MenuConfig :=
  { base_url := none
    wordlist := DEFAULT_WORDLIST
    output_file := DEFAULT_OUTPUT
    headers := []
    cookies := []
    methods := DEFAULT_METHODS
    valid_status_codes := (List.range' 200 100).map Int.ofNat ++ [401, 403] }

/-- The raw strings the operator enters at the seven prompts of menu
option 2, in prompt order. -/
structure ConfigInputs where
  url_input : String
  wordlist_input : String
  output_input : String
  headers_input : String
  cookies_input : String
  methods_input : String
  status_input : String
deriving DecidableEq

/-- Menu option 2 of `interactive_menu` (`Set configurations`).  Each prompt
value is stripped; an empty entry keeps the previous value.  `json.loads` —
an external library call, passed in as `json_loads` returning `none` on a
parse error — and `int(...)` are called with NO surrounding `try/except` in
the source, so a parse failure raises an exception that propagates out of
`interactive_menu` and terminates the process; this is modelled by
`Except.error` carrying the exception name. -/
def set_configurations (json_loads : String → Option (List (String × String)))
    (cfg : MenuConfig) (inp : ConfigInputs) : Except String MenuConfig :=
  let base_url := match pyStrip inp.url_input with
    | "" => cfg.base_url
    | s => some s
  let wordlist := match pyStrip inp.wordlist_input with
    | "" => cfg.wordlist
    | s => s
  let output_file := match pyStrip inp.output_input with
    | "" => cfg.output_file
    | s => s
  let headersR : Except String (List (String × String)) :=
    if pyStrip inp.headers_input = "" then .ok cfg.headers
    else match json_loads (pyStrip inp.headers_input) with
      | some h => .ok h
      | none => .error "json.decoder.JSONDecodeError"
  match headersR with
  | .error e => .error e
  | .ok headers =>
    let cookiesR : Except String (List (String × String)) :=
      if pyStrip inp.cookies_input = "" then .ok cfg.cookies
      else match json_loads (pyStrip inp.cookies_input) with
        | some c => .ok c
        | none => .error "json.decoder.JSONDecodeError"
    match cookiesR with
    | .error e => .error e
    | .ok cookies =>
      let methods :=
        if pyStrip inp.methods_input = "" then cfg.methods
        else pySplitComma (pyStrip inp.methods_input)
      let statusR : Except String (List Int) :=
        if pyStrip inp.status_input = "" then .ok cfg.valid_status_codes
        else match (pySplitComma (pyStrip inp.status_input)).mapM pyInt with
          | some cs => .ok cs
          | none => .error "ValueError: invalid literal for int() with base 10"
      match statusR with
      | .error e => .error e
      | .ok valid_status_codes =>
        .ok { base_url := base_url
              wordlist := wordlist
              output_file := output_file
              headers := headers
              cookies := cookies
              methods := methods
              valid_status_codes := valid_status_codes }

/- ===== Bounded-concurrency dispatch (semaphore discipline) ===== -/

/-- A scheduler-level view of `_process_paths`: how many `_bound_fetch`
coroutines have not yet acquired the semaphore (`pending`), how many hold a
slot with their request in flight (`inflight`), and how many have completed
(`done`). -/
structure DispatchState where
  pending : Nat
  inflight : Nat
  done : Nat
deriving DecidableEq

/-- The dispatch state before any coroutine runs: all `total` candidate
tasks pending, none in flight, none done. -/
def initDispatch (total : Nat) : DispatchState :=
  { pending := total, inflight := 0, done := 0 }

/-- The two scheduler events of `_process_paths`, with the semaphore
`asyncio.Semaphore(MAX_CONCURRENT_REQUESTS)`:
`acquire` — a pending `_bound_fetch` acquires a slot (`async with sem`),
possible only while fewer than `MAX_CONCURRENT_REQUESTS` requests are in
flight, and issues its request; `finish` — an in-flight request completes
with some outcome (response or exception) and the `async with` block
releases the slot unconditionally. -/
inductive DispatchStep : DispatchState → DispatchState → Prop where
  | acquire (s : DispatchState) (hp : 0 < s.pending)
      (hs : s.inflight < MAX_CONCURRENT_REQUESTS) :
      DispatchStep s { pending := s.pending - 1, inflight := s.inflight + 1, done := s.done }
  | finish (s : DispatchState) (outcome : ProbeOutcome) (hf : 0 < s.inflight) :
      DispatchStep s { pending := s.pending, inflight := s.inflight - 1, done := s.done + 1 }

/- ===== Helper lemmas ===== -/

/-- Every character list splits as its leading slashes followed by its
slash-lstripped remainder. -/
theorem lstrip_decomp (l : List Char) :
    l = List.replicate (l.takeWhile (· = '/')).length '/' ++ lstripSlashL l := by
  have hrepl : l.takeWhile (· = '/') =
      List.replicate (l.takeWhile (· = '/')).length '/' := by
    refine List.eq_replicate_iff.mpr ⟨rfl, ?_⟩
    intro b hb
    simpa using List.mem_takeWhile_imp hb
  conv_lhs => rw [← List.takeWhile_append_dropWhile (fun c : Char => decide (c = '/')) l]
  rw [← hrepl]
  rfl

/-- The slash-lstripped remainder does not start with a slash. -/
theorem head_lstrip_ne_slash (l : List Char) : (lstripSlashL l).head? ≠ some '/' := by
  cases h : lstripSlashL l with
  | nil => simp
  | cons c t =>
    have hlen : 0 < (l.dropWhile (fun c : Char => decide (c = '/'))).length := by
      have : lstripSlashL l ≠ [] := by simp [h]
      unfold lstripSlashL at this
      cases hd : l.dropWhile (fun c : Char => decide (c = '/')) with
      | nil => exact absurd hd this
      | cons a b => simp
    have hnot := List.dropWhile_get_zero_not (p := fun c : Char => decide (c = '/')) l hlen
    have hc : c ≠ '/' := by
      have hget : (l.dropWhile (fun c : Char => decide (c = '/'))).get ⟨0, hlen⟩ = c := by
        unfold lstripSlashL at h
        simp [h]
      rw [hget] at hnot
      simpa using hnot
    simp [hc]

/-- rstripSlashL, stated through reversal and lstripSlashL. -/
theorem rstripSlashL_eq (l : List Char) : rstripSlashL l = (lstripSlashL l.reverse).reverse := rfl

/-- Every character list splits as its slash-rstripped remainder followed by
its trailing slashes. -/
theorem rstrip_decomp (l : List Char) :
    l = rstripSlashL l ++ List.replicate (l.reverse.takeWhile (· = '/')).length '/' := by
  have h := lstrip_decomp l.reverse
  have h2 := congrArg List.reverse h
  simpa [List.reverse_append, List.reverse_replicate, rstripSlashL_eq] using h2

/-- The slash-rstripped remainder does not end with a slash. -/
theorem getLast_rstrip_ne_slash (l : List Char) : (rstripSlashL l).getLast? ≠ some '/' := by
  rw [rstripSlashL_eq, List.getLast?_reverse]
  exact head_lstrip_ne_slash l.reverse

/- ===== C4: request URL construction ===== -/

/-- Claim C4 counterexample: for a target ending in `'//'` and a path
beginning `'//x'`, the code strips ALL the slashes on each side
(`rstrip('/')` / `lstrip('/')`), producing `http://t/x`, whereas
stripping exactly one slash from each side as the claim states would produce
`http://t///x`. -/
theorem mkRequestUrl_one_slash_counterexample :
    mkRequestUrl "http://t//" "//x" = "http://t/x" ∧
    mkRequestUrlClaim "http://t//" "//x" = "http://t///x" ∧
    mkRequestUrl "http://t//" "//x" ≠ mkRequestUrlClaim "http://t//" "//x" := by
  refine ⟨by decide, by decide, by decide⟩

/-- Claim C4 (amended): for every target base URL and candidate path, the
request URL is `b ++ "/" ++ p` where `b` is the target with ALL trailing
slashes removed and `p` is the path with ALL leading slashes removed —
witnessed by the decompositions `base_url = b ++ "/"^k` with `b` not ending
in a slash and `path = "/"^m ++ p` with `p` not starting with one. -/
theorem mkRequestUrl_strips_all_slashes (base_url path : String) :
    ∃ (b p : List Char) (k m : Nat),
      base_url.data = b ++ List.replicate k '/' ∧ b.getLast? ≠ some '/' ∧
      path.data = List.replicate m '/' ++ p ∧ p.head? ≠ some '/' ∧
      (mkRequestUrl base_url path).data = b ++ '/' :: p := by
  refine ⟨rstripSlashL base_url.data, lstripSlashL path.data,
    (base_url.data.reverse.takeWhile (· = '/')).length,
    (path.data.takeWhile (· = '/')).length,
    rstrip_decomp base_url.data, getLast_rstrip_ne_slash base_url.data,
    lstrip_decomp path.data, head_lstrip_ne_slash path.data, rfl⟩

/- ===== C2: classification of one probe outcome ===== -/

/-- Claim C2: after one probe, a URL is in `found_endpoints` iff it was
already there, or the probe's request completed with a status code that is a
member of `valid_status_codes` and the URL is the probe's request URL.  In
particular a transport exception (`ProbeOutcome.failure`) never adds a
URL. -/
theorem fetchStep_found_iff (st : DrillerState) (ev : ProbeEvent) (u : String) :
    u ∈ (fetchStep st ev).found_endpoints ↔
      u ∈ st.found_endpoints ∨
        (u = fetchUrl st.base_url ev.path ∧
          ∃ code, ev.outcome = .status code ∧ code ∈ st.valid_status_codes) := by
  cases hev : ev.outcome with
  | status code =>
    by_cases hc : code ∈ st.valid_status_codes
    · simp only [fetchStep, hev, if_pos hc]
      constructor
      · intro h
        rcases Finset.mem_insert.mp h with h | h
        · exact Or.inr ⟨h, code, rfl, hc⟩
        · exact Or.inl h
      · intro h
        rcases h with h | ⟨hu, _, _, _⟩
        · exact Finset.mem_insert.mpr (Or.inr h)
        · exact Finset.mem_insert.mpr (Or.inl hu)
    · simp only [fetchStep, hev, if_neg hc]
      constructor
      · intro h; exact Or.inl h
      · intro h
        rcases h with h | ⟨_, code2, hcode2, hmem⟩
        · exact h
        · cases hcode2; exact absurd hmem hc
  | failure msg =>
    simp only [fetchStep, hev]
    constructor
    · intro h; exact Or.inl h
    · intro h
      rcases h with h | ⟨_, code2, hcode2, _⟩
      · exact h
      · cases hcode2

/- ===== C9: bounded concurrency ===== -/

/-- One scheduler event preserves the in-flight bound and task
conservation. -/
theorem dispatch_step_preserves (total : Nat) (s t : DispatchState)
    (hstep : DispatchStep s t) (h1 : s.inflight ≤ MAX_CONCURRENT_REQUESTS)
    (h2 : s.pending + s.inflight + s.done = total) :
    t.inflight ≤ MAX_CONCURRENT_REQUESTS ∧
      t.pending + t.inflight + t.done = total := by
  cases hstep with
  | acquire hp hs =>
    refine ⟨hs, ?_⟩
    show s.pending - 1 + (s.inflight + 1) + s.done = total
    omega
  | finish outcome hf =>
    refine ⟨le_trans (Nat.sub_le _ _) h1, ?_⟩
    show s.pending + (s.inflight - 1) + (s.done + 1) = total
    omega

/-- Claim C9: along every schedule of `_process_paths` starting from the
initial dispatch state, at most `MAX_CONCURRENT_REQUESTS` (100) requests are
in flight at any instant — a pending task must acquire one of the semaphore's
slots before issuing its request (`DispatchStep.acquire`) and every completion,
success or failure, releases its slot (`DispatchStep.finish`); additionally
no task is lost: `pending + inflight + done` always equals the task total. -/
theorem dispatch_inflight_le_limit (total : Nat) (s : DispatchState)
    (h : Relation.ReflTransGen DispatchStep (initDispatch total) s) :
    s.inflight ≤ MAX_CONCURRENT_REQUESTS ∧
      s.pending + s.inflight + s.done = total := by
  induction h with
  | refl => simp [initDispatch]
  | tail hsteps hstep ih =>
    exact dispatch_step_preserves total _ _ hstep ih.1 ih.2

/-- Witness for C9 at a concrete reachable state: the initial state of a
three-candidate run satisfies the bound and the conservation equation. -/
theorem dispatch_inflight_le_limit_witness :
    (initDispatch 3).inflight ≤ MAX_CONCURRENT_REQUESTS ∧
      (initDispatch 3).pending + (initDispatch 3).inflight + (initDispatch 3).done = 3 :=
  dispatch_inflight_le_limit 3 (initDispatch 3) Relation.ReflTransGen.refl

/- ===== C10: menu option 4 dispatches nothing ===== -/

/-- Claim C10: a freshly constructed `FuzzDriller` (as menu option 4 builds)
has an empty `found_endpoints` set, and the download phase invoked on it
dispatches zero download tasks — it iterates only the in-memory set, never
the report file. -/
theorem menu_option4_dispatches_nothing (base_url wordlist output_file : String)
    (headers cookies : List (String × String)) (methods : List String)
    (valid_status_codes : List Nat) :
    (FuzzDriller_init base_url wordlist output_file headers cookies methods
        valid_status_codes).found_endpoints = ∅ ∧
    menu_option4_tasks base_url wordlist output_file headers cookies methods
        valid_status_codes = [] := by
  constructor
  · rfl
  · show download_tasks _ = []
    unfold download_tasks
    have : (FuzzDriller_init base_url wordlist output_file headers cookies methods
        valid_status_codes).found_endpoints = ∅ := rfl
    rw [this]
    exact Finset.sort_empty (· ≤ ·)

/- ===== C1: every candidate is counted exactly once ===== -/

/-- The `finally` block of `_fetch` increments `completed_tasks` exactly
once, whatever the probe outcome. -/
theorem fetchStep_completed (st : DrillerState) (ev : ProbeEvent) :
    (fetchStep st ev).completed_tasks = st.completed_tasks + 1 := by
  cases hev : ev.outcome with
  | status code =>
    by_cases hc : code ∈ st.valid_status_codes <;> simp [fetchStep, hev, hc]
  | failure msg => simp [fetchStep, hev]

/-- A probe never changes `total_tasks`. -/
theorem fetchStep_total (st : DrillerState) (ev : ProbeEvent) :
    (fetchStep st ev).total_tasks = st.total_tasks := by
  cases hev : ev.outcome with
  | status code =>
    by_cases hc : code ∈ st.valid_status_codes <;> simp [fetchStep, hev, hc]
  | failure msg => simp [fetchStep, hev]

/-- Folding probes adds exactly one completion per event. -/
theorem foldl_fetchStep_completed (events : List ProbeEvent) :
    ∀ st : DrillerState,
      (events.foldl fetchStep st).completed_tasks = st.completed_tasks + events.length := by
  induction events with
  | nil => intro st; simp
  | cons e es ih =>
    intro st
    simp only [List.foldl_cons, List.length_cons, ih, fetchStep_completed]
    omega

/-- Folding probes leaves `total_tasks` unchanged. -/
theorem foldl_fetchStep_total (events : List ProbeEvent) :
    ∀ st : DrillerState, (events.foldl fetchStep st).total_tasks = st.total_tasks := by
  induction events with
  | nil => intro st; simp
  | cons e es ih =>
    intro st
    simp only [List.foldl_cons, ih, fetchStep_total]

/-- The nested loops of `_process_paths` create `|paths| * |methods|`
candidates. -/
theorem candidates_length (paths methods : List String) :
    (candidates paths methods).length = paths.length * methods.length := by
  induction paths with
  | nil => simp [candidates]
  | cons p ps ih =>
    simp only [candidates, List.flatMap_cons, List.length_append, List.length_map,
      List.length_cons] at ih ⊢
    rw [ih]
    ring

/-- Claim C1: over any run of the probing phase — any mix of accepted,
rejected and transport-failed requests, completing in any order (any
permutation of the dispatched candidates) — once the `asyncio.gather`
barrier completes, `completed_tasks` equals `total_tasks`, which was set to
`|paths| * |methods|` before any probe was dispatched; each candidate
increments the counter exactly once regardless of outcome. -/
theorem process_paths_completed_eq_total (st : DrillerState) (paths : List String)
    (events : List ProbeEvent) (h0 : st.completed_tasks = 0)
    (hperm : (events.map fun e => (e.path, e.method)).Perm (candidates paths st.methods)) :
    (process_paths st paths events).completed_tasks =
      (process_paths st paths events).total_tasks := by
  have hlen : events.length = paths.length * st.methods.length := by
    have h1 := hperm.length_eq
    rwa [List.length_map, candidates_length] at h1
  unfold process_paths
  rw [foldl_fetchStep_completed, foldl_fetchStep_total]
  simp [computeTotalTasks, h0, hlen]

/-- Witness for C1: a one-path, one-method run whose only probe is rejected
(status 404) still ends with `completed_tasks = total_tasks`. -/
theorem process_paths_completed_eq_total_witness :
    (process_paths (FuzzDriller_init "http://t" "w" "o" [] [] ["HEAD"] [200]) ["a"]
        [⟨"a", "HEAD", .status 404⟩]).completed_tasks =
      (process_paths (FuzzDriller_init "http://t" "w" "o" [] [] ["HEAD"] [200]) ["a"]
        [⟨"a", "HEAD", .status 404⟩]).total_tasks :=
  process_paths_completed_eq_total _ ["a"] _ rfl (by decide)

/- ===== C3: report writing ===== -/

/-- Claim C3: `_save_results` warns and writes nothing iff no endpoint was
discovered; otherwise it overwrites the report with the sorted endpoint set —
lexicographically sorted ascending, duplicate-free, containing exactly the
discovered URLs. -/
theorem save_results_spec (found : Finset String) :
    (save_results found = .warned ↔ found = ∅) ∧
    ∀ ls, save_results found = .wrote ls →
      List.Sorted (· ≤ ·) ls ∧ ls.Nodup ∧ ∀ u, u ∈ ls ↔ u ∈ found := by
  constructor
  · by_cases h : found = ∅ <;> simp [save_results, h]
  · intro ls hls
    by_cases h : found = ∅
    · rw [save_results, if_pos h] at hls
      exact SaveOutcome.noConfusion hls
    · rw [save_results, if_neg h] at hls
      injection hls with hsort
      subst hsort
      exact ⟨Finset.sort_sorted _ _, Finset.sort_nodup _ _, fun u => Finset.mem_sort _⟩

/-- Witness for C3: the singleton discovered set produces the one-line,
sorted, duplicate-free report. -/
theorem save_results_spec_witness :
    List.Sorted (· ≤ ·) ["http://t/a"] ∧ List.Nodup ["http://t/a"] ∧
      ∀ u, u ∈ ["http://t/a"] ↔ u ∈ ({"http://t/a"} : Finset String) :=
  (save_results_spec {"http://t/a"}).2 ["http://t/a"] (by
    rw [save_results, if_neg (Finset.singleton_ne_empty "http://t/a")]
    rw [Finset.sort_singleton])

/- ===== C5: wordlist loading ===== -/

/-- Claim C5: the candidate path list consists of the whitespace-stripped
nonempty lines of the wordlist plus the five builtin paths, deduplicated; a
missing or empty wordlist file yields exactly the five builtin paths, so
`total_tasks = 5 * |methods|`. -/
theorem load_wordlist_spec :
    (∀ (lines : List String) (u : String),
        u ∈ load_wordlist (some lines) ↔
          ((∃ l ∈ lines, pyStrip l = u) ∧ u ≠ "") ∨ u ∈ COMMON_PATHS) ∧
    (∀ file_lines, (load_wordlist file_lines).Nodup) ∧
    load_wordlist none = COMMON_PATHS ∧
    load_wordlist (some []) = COMMON_PATHS ∧
    (∀ methods : List String,
        computeTotalTasks (load_wordlist none) methods = 5 * methods.length) ∧
    (∀ methods : List String,
        computeTotalTasks (load_wordlist (some [])) methods = 5 * methods.length) := by
  have hnone : load_wordlist none = COMMON_PATHS := by decide
  have hempty : load_wordlist (some []) = COMMON_PATHS := by decide
  refine ⟨?_, ?_, hnone, hempty, ?_, ?_⟩
  · intro lines u
    simp only [load_wordlist, List.mem_dedup, List.mem_append, List.mem_filter,
      List.mem_map]
    constructor
    · rintro (⟨⟨l, hl, hstrip⟩, hne⟩ | hc)
      · exact Or.inl ⟨⟨l, hl, hstrip⟩, by simpa using hne⟩
      · exact Or.inr hc
    · rintro (⟨⟨l, hl, hstrip⟩, hne⟩ | hc)
      · exact Or.inl ⟨⟨l, hl, hstrip⟩, by simpa using hne⟩
      · exact Or.inr hc
  · intro file_lines
    exact List.nodup_dedup _
  · intro methods
    rw [hnone]
    rfl
  · intro methods
    rw [hempty]
    rfl

/- ===== C6: content-type classification and artifact production ===== -/

/-- Claim C6 counterexample: `_get_file_extension` tests substring
containment, not equality, so the Content-Type `text/html; charset=utf-8` —
which is not one of the four literal values the claim enumerates, hence
"any other Content-Type" under the claim — still maps to `html` and an
artifact IS produced for it. -/
theorem download_content_ct_counterexample :
    get_file_extension_claim "text/html; charset=utf-8" = none ∧
    download_content (FuzzDriller_init "http://t" "w" "o" [] [] ["HEAD"] [200])
        "http://t/a" (some ⟨200, some "text/html; charset=utf-8", "body"⟩) =
      .artifact "a" "html" "body" := by
  refine ⟨by decide, by decide⟩

/-- Claim C6 (amended): an artifact is persisted only when the response
status is in the acceptance set and the Content-Type CONTAINS one of the
known markers as a substring (`text/html` → html, else
`application/javascript` → js, else `application/x-httpd-php` or
`text/x-php` → php); a completed response whose Content-Type contains none
of them yields no artifact and no error, and `application/octet-stream`
yields no extension. -/
theorem download_content_amended (st : DrillerState) (url : String)
    (resp : Option DownloadResponse) :
    (∀ name ext body, download_content st url resp = .artifact name ext body →
        ∃ r, resp = some r ∧ r.status ∈ st.valid_status_codes ∧
          get_file_extension (r.content_type.getD "") = some ext) ∧
    (∀ r, resp = some r → get_file_extension (r.content_type.getD "") = none →
        download_content st url resp = .skipped) ∧
    get_file_extension "text/html" = some "html" ∧
    get_file_extension "application/javascript" = some "js" ∧
    get_file_extension "application/x-httpd-php" = some "php" ∧
    get_file_extension "text/x-php" = some "php" ∧
    get_file_extension "application/octet-stream" = none ∧
    (∀ ct : String, get_file_extension ct = none ↔
        pyContains ct "text/html" = false ∧
        pyContains ct "application/javascript" = false ∧
        pyContains ct "application/x-httpd-php" = false ∧
        pyContains ct "text/x-php" = false) := by
  refine ⟨?_, ?_, by decide, by decide, by decide, by decide, by decide, ?_⟩
  · intro name ext body h
    cases resp with
    | none => simp [download_content] at h
    | some r =>
      by_cases hs : r.status ∈ st.valid_status_codes
      · cases hext : get_file_extension (r.content_type.getD "") with
        | none => simp [download_content, hs, hext] at h
        | some e =>
          simp only [download_content, if_pos hs, hext] at h
          injection h with h1 h2 h3
          exact ⟨r, rfl, hs, by rw [hext, h2]⟩
      · simp [download_content, hs] at h
  · intro r hr hext
    subst hr
    by_cases hs : r.status ∈ st.valid_status_codes <;>
      simp [download_content, hs, hext]
  · intro ct
    simp only [get_file_extension]
    split_ifs with h1 h2 h3
    · simp [h1]
    · simp [h2]
    · rcases Bool.or_eq_true_iff.mp h3 with h | h <;> simp [h]
    · have h3a := h3
      rw [Bool.or_eq_true_iff] at h3a
      push_neg at h3a
      constructor
      · intro _
        refine ⟨by simpa using h1, by simpa using h2, ?_, ?_⟩
        · simpa using fun hx => h3 (Bool.or_eq_true_iff.mpr (Or.inl hx))
        · simpa using fun hx => h3 (Bool.or_eq_true_iff.mpr (Or.inr hx))
      · intro _
        rfl

/-- Witness for C6 at a concrete input: an accepted response with
Content-Type `application/octet-stream` produces no artifact and no
error. -/
theorem download_content_amended_witness :
    download_content (FuzzDriller_init "http://t" "w" "o" [] [] ["HEAD"] [200])
        "http://t/a" (some ⟨200, some "application/octet-stream", "b"⟩) = .skipped :=
  (download_content_amended (FuzzDriller_init "http://t" "w" "o" [] [] ["HEAD"] [200])
      "http://t/a" (some ⟨200, some "application/octet-stream", "b"⟩)).2.1
    ⟨200, some "application/octet-stream", "b"⟩ rfl (by decide)

/- ===== C7: filename sanitization ===== -/

/-- Claim C7 counterexample: Python's Unicode-aware `\w` keeps the non-ASCII
letter `é`, and `_sanitize_filename` also strips boundary slashes after
removing the base URL, so `http://t/café` sanitizes to `café` — while the
claim (ASCII class `[A-Za-z0-9_-]` applied after prefix removal only) would
give `_caf_`. -/
theorem sanitize_filename_counterexample :
    sanitize_filename "http://t" "http://t/café" = "café" ∧
    sanitize_filename_claim "http://t" "http://t/café" = "_caf_" ∧
    sanitize_filename "http://t" "http://t/café" ≠
      sanitize_filename_claim "http://t" "http://t/café" := by
  refine ⟨by decide, by decide, by decide⟩

/-- Claim C7 (amended): the sanitized filename is obtained from the URL by
removing every occurrence of the base URL, stripping leading and trailing
slashes, and then replacing each remaining character that is neither a
Python word character (Unicode-aware: non-ASCII letters are kept) nor a
hyphen by an underscore — character by character, preserving length. -/
theorem sanitize_filename_amended (base_url url : String) :
    (sanitize_filename base_url url).data.length =
      (stripSlashBothL (removeOccs base_url.data url.data)).length ∧
    (∀ i : Nat, (sanitize_filename base_url url).data[i]? =
        ((stripSlashBothL (removeOccs base_url.data url.data))[i]?).map sanitizeCharMap) ∧
    (∀ c ∈ (sanitize_filename base_url url).data,
        pyWordChar c = true ∨ c = '-' ∨ c = '_') := by
  refine ⟨by simp [sanitize_filename], ?_, ?_⟩
  · intro i
    simp [sanitize_filename, List.getElem?_map]
  · intro c hc
    simp only [sanitize_filename, List.mem_map] at hc
    obtain ⟨a, ha, rfl⟩ := hc
    unfold sanitizeCharMap
    split_ifs with h
    · rcases Bool.or_eq_true_iff.mp h with h | h
      · rcases Bool.or_eq_true_iff.mp h with h | h
        · exact Or.inl h
        · exact Or.inr (Or.inl (by simpa using h))
      · exact Or.inr (Or.inr (by simpa using h))
    · exact Or.inr (Or.inr rfl)

/-- Witness for C7 at a concrete input: the character kept from sanitizing
`http://t/a` belongs to the allowed class. -/
theorem sanitize_filename_amended_witness :
    pyWordChar 'a' = true ∨ 'a' = '-' ∨ 'a' = '_' :=
  (sanitize_filename_amended "http://t" "http://t/a").2.2 'a' (by decide)

/- ===== C8: configuration errors ===== -/

/-- Claim C8 counterexample: entering the non-integer status list `200,abc`
at menu option 2 does not produce a reported-and-recovered error — the
uncaught `ValueError` from `int('abc')` propagates out of `interactive_menu`
(modelled as `Except.error`) and the process terminates; no updated
configuration is returned. -/
theorem set_configurations_counterexample :
    set_configurations (fun _ => none) defaultMenuConfig
        ⟨"http://t", "", "", "", "", "", "200,abc"⟩ =
      Except.error "ValueError: invalid literal for int() with base 10" := by
  rfl

/-- Claim C8 (amended): malformed configuration input is NOT caught: if the
headers entry is nonempty and fails JSON parsing, or the cookies entry is
nonempty and fails JSON parsing, or the status entry is nonempty and some
comma-separated token is not an integer — whatever was entered at the other
prompts — the exception propagates out of the configuration step: the step
aborts with an error and the process terminates, instead of reporting the
error and retaining prior values. -/
theorem set_configurations_amended
    (json_loads : String → Option (List (String × String)))
    (cfg : MenuConfig) (inp : ConfigInputs)
    (h : (pyStrip inp.headers_input ≠ "" ∧
            json_loads (pyStrip inp.headers_input) = none) ∨
         (pyStrip inp.cookies_input ≠ "" ∧
            json_loads (pyStrip inp.cookies_input) = none) ∨
         (pyStrip inp.status_input ≠ "" ∧
            (pySplitComma (pyStrip inp.status_input)).mapM pyInt = none)) :
    ∃ msg, set_configurations json_loads cfg inp = Except.error msg := by
  rcases h with ⟨hhne, hhjson⟩ | ⟨hcne, hcjson⟩ | ⟨hsne, hmap⟩
  · exact ⟨"json.decoder.JSONDecodeError",
      by simp [set_configurations, hhne, hhjson]⟩
  · by_cases hh : pyStrip inp.headers_input = ""
    · exact ⟨"json.decoder.JSONDecodeError",
        by simp [set_configurations, hh, hcne, hcjson]⟩
    · cases hhjs : json_loads (pyStrip inp.headers_input) with
      | none => exact ⟨"json.decoder.JSONDecodeError",
          by simp [set_configurations, hh, hhjs]⟩
      | some hv => exact ⟨"json.decoder.JSONDecodeError",
          by simp [set_configurations, hh, hhjs, hcne, hcjson]⟩
  · have hmap2 : List.mapM.loop pyInt (pySplitComma (pyStrip inp.status_input)) [] = none := by
      simpa [List.mapM] using hmap
    by_cases hh : pyStrip inp.headers_input = ""
    · by_cases hc : pyStrip inp.cookies_input = ""
      · exact ⟨"ValueError: invalid literal for int() with base 10",
          by simp [set_configurations, hh, hc, hsne, hmap2]⟩
      · cases hcjs : json_loads (pyStrip inp.cookies_input) with
        | none => exact ⟨"json.decoder.JSONDecodeError",
            by simp [set_configurations, hh, hc, hcjs]⟩
        | some cv => exact ⟨"ValueError: invalid literal for int() with base 10",
            by simp [set_configurations, hh, hc, hcjs, hsne, hmap2]⟩
    · cases hhjs : json_loads (pyStrip inp.headers_input) with
      | none => exact ⟨"json.decoder.JSONDecodeError",
          by simp [set_configurations, hh, hhjs]⟩
      | some hv =>
        by_cases hc : pyStrip inp.cookies_input = ""
        · exact ⟨"ValueError: invalid literal for int() with base 10",
            by simp [set_configurations, hh, hhjs, hc, hsne, hmap2]⟩
        · cases hcjs : json_loads (pyStrip inp.cookies_input) with
          | none => exact ⟨"json.decoder.JSONDecodeError",
              by simp [set_configurations, hh, hhjs, hc, hcjs]⟩
          | some cv => exact ⟨"ValueError: invalid literal for int() with base 10",
              by simp [set_configurations, hh, hhjs, hc, hcjs, hsne, hmap2]⟩

/-- Witness for C8 at a concrete input: the non-integer status list
`200,abc` aborts the configuration step with an error. -/
theorem set_configurations_amended_witness :
    ∃ msg, set_configurations (fun _ => none) defaultMenuConfig
        ⟨"http://t", "", "", "", "", "", "200,abc"⟩ = Except.error msg :=
  set_configurations_amended (fun _ => none) defaultMenuConfig
    ⟨"http://t", "", "", "", "", "", "200,abc"⟩
    (Or.inr (Or.inr ⟨by decide, by decide⟩))
